import Mathlib

/-!
Verification of the smallsh process-supervision and tokenizing subsystem
(src/smallsh.c) against its natural-language specification.

The C program is shallowly embedded: the word linked list becomes a
`List String`, the childProc linked list (Job Table) a `List Nat` of pids,
`struct endStatus` the structure `EndStatus`, and the operating-system
side effects (fork, waitpid, kill, printf) become explicit parameters
(oracles giving the outcome of each waited-on child) and an `Event` trace.
Undefined behaviour in the C (a NULL dereference, a use-after-free) is
made explicit: parsing returns `ParseResult.crash`, and the two-word `<`
case of `redirectIO` returns `none`.
-/

set_option autoImplicit false

namespace Smallsh

/-- The outcome the OS reports for a terminated child: normal exit with a
code (`WIFEXITED`/`WEXITSTATUS`) or termination by a signal
(`WTERMSIG`). -/
inductive WaitResult where
  | exited (code : Nat)
  | signaled (sg : Nat)
deriving DecidableEq, Repr

/-- `struct endStatus` (src/smallsh.c:69-73): last foreground exit or
termination record. `exit = true` means normal exit, `num` is the exit
code or the terminating signal number. -/
structure EndStatus where
  exit : Bool
  num : Nat
deriving DecidableEq, Repr

/-- A command descriptor: the linked list of `struct argument` nodes
(src/smallsh.c:40-48) abstracted as the word texts plus the
head-only fields `redirInput`, `redirOutput`, `background`. -/
structure CmdDesc where
  words : List String
  redirInput : Option String
  redirOutput : Option String
  background : Bool
deriving DecidableEq, Repr

/-- Result of tokenizing one input line.  `nothing` = the C code returns
a NULL head (empty line or comment); `crash` = the C code dereferences a
NULL pointer (undefined behaviour); `cmd` = a descriptor was built. -/
inductive ParseResult where
  | nothing
  | crash
  | cmd (d : CmdDesc)
deriving DecidableEq, Repr

/-- Observable actions of the shell process, in program order. -/
inductive Event where
  | print (line : String)
  | forkChild (pid : Nat)
  | waitBlocking (pid : Nat)
  | waitNoHang (pid : Nat)
  | reapPass
  | readInput
  | killSig (pid : Nat) (sg : Nat)
  | chdir
  | exitShell (code : Nat)
deriving DecidableEq, Repr

/-- `removeChildProc` (src/smallsh.c:191-223): removes the first node
whose id matches, if any. -/
def removeChildProc : List Nat → Nat → List Nat
  | [], _ => []
  | x :: xs, id => if x = id then xs else x :: removeChildProc xs id

/-- `createChildProc` (src/smallsh.c:234-256): appends a new pid record
at the end of the list. -/
def createChildProc (head : List Nat) (id : Nat) : List Nat :=
  head ++ [id]

/-- `strtok_r(input, " ", ...)` loop of `separateInput`
(src/smallsh.c:664-681): split the character buffer on spaces, skipping
empty fields.  `cur` holds the characters of the current word in reverse. -/
def wordsAux (cur : List Char) : List Char → List String
  | [] => if cur.isEmpty then [] else [⟨cur.reverse⟩]
  | c :: rest =>
    if c = ' ' then
      if cur.isEmpty then wordsAux [] rest
      else ⟨cur.reverse⟩ :: wordsAux [] rest
    else wordsAux (c :: cur) rest

def tokenize (input : List Char) : List String :=
  wordsAux [] input

/-- `setBackground` (src/smallsh.c:395-415): when foreground-only mode is
off, mark the head background; then, only when the list has at least two
nodes, unlink and free the tail (the `&` word).  A single-word list keeps
its word. -/
def setBackground (backgroundOnly : Bool) (d : CmdDesc) : CmdDesc :=
  let d1 := if backgroundOnly = false then { d with background := true } else d
  if d1.words.length ≥ 2 then { d1 with words := d1.words.dropLast } else d1

/-- Tail of `separateInput` (src/smallsh.c:682-686): after the word list
is built, `strcmp(tail->text, "&")` is evaluated.  When no word was
produced, `tail` is NULL and the dereference is undefined behaviour,
modelled as `crash`. -/
def buildDesc (backgroundOnly : Bool) (toks : List String) : ParseResult :=
  match toks.getLast? with
  | none => ParseResult.crash
  | some lastTok =>
    if lastTok = "&" then
      ParseResult.cmd (setBackground backgroundOnly ⟨toks, none, none, false⟩)
    else
      ParseResult.cmd ⟨toks, none, none, false⟩

/-- `separateInput` (src/smallsh.c:658-687). -/
def separateInput (backgroundOnly : Bool) (input : List Char) : ParseResult :=
  buildDesc backgroundOnly (tokenize input)

/-- The `getchar` loop of `getInput` (src/smallsh.c:744-757), with the
`c == '$'` branch transcribing `check$$` (src/smallsh.c:699-724) inline.
Arguments: the pending stdin stream and the accumulated buffer; result:
the final buffer and the unread remainder of the stream.
In the `$$` branch, `sprintf` writes the decimal pid digits followed by a
terminator at the new index, and `i` advances by `floor(log10(pid)+1)` =
the digit count, so `input[i] == '\0'` holds and the check in the caller
breaks out of the read loop: the rest of the line stays unread. -/
def getInputLoop (pid : Nat) : List Char → List Char → List Char × List Char
  | [], acc => (acc, [])
  | c :: rest, acc =>
    if c = '\n' then (acc, rest)
    else if c = '$' then
      match rest with
      | [] => (acc ++ ['$'], [])
      | c2 :: rest2 =>
        if c2 = '$' then (acc ++ (toString pid).data, rest2)
        else if c2 = '\n' then (acc ++ ['$'], rest2)
        else getInputLoop pid rest2 (acc ++ ['$', c2])
    else getInputLoop pid rest (acc ++ [c])

/-- `getInput` (src/smallsh.c:734-767): read one line (with `$$`
expansion), return NULL for an empty line or a comment line, otherwise
tokenize the buffer.  Also returns the unread remainder of stdin. -/
def getInput (pid : Nat) (backgroundOnly : Bool) (stream : List Char) :
    ParseResult × List Char :=
  let r := getInputLoop pid stream []
  match r.1 with
  | [] => (ParseResult.nothing, r.2)
  | c0 :: _ =>
    if c0 = '#' then (ParseResult.nothing, r.2)
    else (separateInput backgroundOnly r.1, r.2)

/-- `redirectIO` (src/smallsh.c:347-385): inspect the last word and the
one before it.  On `>`: record the output target; the last two nodes are
unlinked only when a third-to-last node exists.  On `<`: record the input
target; `freeArguments(previous)` is executed even when `previous` is the
head itself (a two-word list), freeing the list the caller still holds —
undefined behaviour, modelled as `none`. -/
def redirectIO (d : CmdDesc) : Option (Bool × CmdDesc) :=
  match d.words.reverse with
  | [] => some (false, d)
  | [_] => some (false, d)
  | lastTok :: prevTok :: restRev =>
    if prevTok = ">" then
      some (true, { d with
        redirOutput := some lastTok
        words := if restRev = [] then d.words else restRev.reverse })
    else if prevTok = "<" then
      if restRev = [] then none
      else some (true, { d with
        redirInput := some lastTok
        words := restRev.reverse })
    else some (false, d)

/-- `if (redirectIO(head)) redirectIO(head);` (src/smallsh.c:463-465):
redirection extraction is attempted a second time exactly when the first
attempt succeeded, and never a third time. -/
def redirectTwice (d : CmdDesc) : Option CmdDesc :=
  match redirectIO d with
  | none => none
  | some (false, d1) => some d1
  | some (true, d1) =>
    match redirectIO d1 with
    | none => none
    | some r => some r.2

/-- `printStatus` (src/smallsh.c:539-549). -/
def printStatus (exitStatus : EndStatus) : String :=
  (if exitStatus.exit = true then "exit value " else "terminated by signal ")
    ++ toString exitStatus.num

/-- The announcement printed by `checkTerminatedChildren` for one
terminated child (src/smallsh.c:796-803). -/
def bgAnnounce (sg : Bool) (pid : Nat) (w : WaitResult) : String :=
  match w with
  | WaitResult.exited c =>
    "background pid " ++ toString pid ++ " is done: exit value " ++ toString c
  | WaitResult.signaled s =>
    if sg then "terminated by signal " ++ toString s
    else "background pid " ++ toString pid
      ++ " is done: terminated by signal " ++ toString s

/-- The `while (current != NULL)` loop of `checkTerminatedChildren`
(src/smallsh.c:790-810).  First list: the ids still to be visited
(`current` walks the original chain); second: the evolving head.  The
oracle models `waitpid(id, ..., WNOHANG)`: `none` = still running
(waitpid returns 0), `some w` = terminated with outcome `w` (waitpid
returns the pid, which the code then removes from the head). -/
def checkTCLoop (oracle : Nat → Option WaitResult) (sg : Bool) :
    List Nat → List Nat → List Nat × List Event
  | [], head => (head, [])
  | p :: rest, head =>
    match oracle p with
    | none =>
      ((checkTCLoop oracle sg rest head).1,
        Event.waitNoHang p :: (checkTCLoop oracle sg rest head).2)
    | some w =>
      ((checkTCLoop oracle sg rest (removeChildProc head p)).1,
        Event.waitNoHang p :: Event.print (bgAnnounce sg p w) ::
          (checkTCLoop oracle sg rest (removeChildProc head p)).2)

/-- `checkTerminatedChildren` (src/smallsh.c:779-813). -/
def checkTerminatedChildren (oracle : Nat → Option WaitResult)
    (head : List Nat) (sg : Bool) : List Nat × List Event :=
  match head with
  | [] => (head, [])
  | _ :: _ => checkTCLoop oracle sg head head

/-- `otherProcess` (src/smallsh.c:455-529), supervising (parent) side.
`newPid` is the pid `fork` hands back; `w` is the outcome the blocking
`waitpid` reports for a foreground child (waitpid returns the pid on
success, so the subsequent `removeChildProc` removes exactly that pid).
`none` models the undefined behaviour `redirectIO` can reach.  The child
side (`execvp` after `setInput`/`setOutput`) runs in the other process
and is outside this embedding.
Parent branch: the pid is always appended to the child list first; a
foreground dispatch then waits, records the outcome in the status record,
prints the one-line notice exactly when the terminating signal is 2, and
removes the pid; a background dispatch prints the pid and returns. -/
def otherProcess (d : CmdDesc) (children : List Nat) (exitStatus : EndStatus)
    (newPid : Nat) (w : WaitResult) :
    Option (List Nat × EndStatus × List Event) :=
  match redirectTwice d with
  | none => none
  | some d2 =>
    let c1 := createChildProc children newPid
    if d2.background = false then
      match w with
      | WaitResult.exited code =>
        some (removeChildProc c1 newPid, ⟨true, code⟩,
          [Event.forkChild newPid, Event.waitBlocking newPid])
      | WaitResult.signaled sg =>
        some (removeChildProc c1 newPid, ⟨false, sg⟩,
          [Event.forkChild newPid, Event.waitBlocking newPid] ++
            (if sg = 2 then
              [Event.print ("terminated by signal " ++ toString sg)]
            else []))
    else
      some (c1, exitStatus,
        [Event.forkChild newPid,
         Event.print ("background pid is " ++ toString newPid)])

/-- `killChildren` (src/smallsh.c:575-588): walk the child list, sending
SIGTERM (signal 15) to each pid and blockingly waiting on it. -/
def killChildren : List Nat → List Event
  | [] => []
  | p :: rest => Event.killSig p 15 :: Event.waitBlocking p :: killChildren rest

/-- Result of the built-in dispatcher: the shell terminated (`exit`), the
command was handled in-process (`cd`, `status`), or it fell through to
`otherProcess`. -/
inductive Dispatch where
  | exited (tr : List Event) (code : Nat)
  | handled (tr : List Event)
  | external
deriving DecidableEq, Repr

/-- `builtIn` (src/smallsh.c:601-624): compare the head word against
`exit`, `cd`, `status` in that order.  `exit` drains the child list via
`killChildren` and terminates the shell with `EXIT_SUCCESS` (0).
`cd` calls `changeDir` (src/smallsh.c:558-566); `status` prints the
status record.  The head is never NULL at the call site, so the `[]`
case is unreachable. -/
def builtIn (d : CmdDesc) (children : List Nat) (exitStatus : EndStatus) :
    Dispatch :=
  match d.words.head? with
  | none => Dispatch.external
  | some w0 =>
    if w0 = "exit" then
      Dispatch.exited (killChildren children ++ [Event.exitShell 0]) 0
    else if w0 = "cd" then Dispatch.handled [Event.chdir]
    else if w0 = "status" then
      Dispatch.handled [Event.print (printStatus exitStatus)]
    else Dispatch.external

/-- The per-iteration mutable state of the shell: `children` and `exitStatus`
locals of `main` (src/smallsh.c:852-855) plus the global
`backgroundOnly` flag (src/smallsh.c:26). -/
structure ShellState where
  children : List Nat
  status : EndStatus
  backgroundOnly : Bool
deriving DecidableEq, Repr

/-- `children = checkTerminatedChildren(children, false);`
(src/smallsh.c:877), as a step on the shell state.  The `reapPass` event
marks the invocation. -/
def reapPassState (oracle : Nat → Option WaitResult) (s : ShellState) :
    ShellState × List Event :=
  ({ s with children := (checkTerminatedChildren oracle s.children false).1 },
   Event.reapPass :: (checkTerminatedChildren oracle s.children false).2)

/-- One iteration of the `while(true)` loop of `main`
(src/smallsh.c:871-898): reap pass, then read input, then dispatch to the
built-ins or to `otherProcess`.  Prompt printing is part of `getInput`
and not traced separately; `Event.readInput` marks the `getInput` call.
`oracle` resolves the non-blocking waits of the reap pass, `forkPid` and
`w` the fork and the foreground wait of a possible dispatch. -/
def mainLoopIter (s : ShellState) (selfPid : Nat) (stream : List Char)
    (oracle : Nat → Option WaitResult) (forkPid : Nat) (w : WaitResult) :
    Option (ShellState × List Char × List Event) :=
  match (getInput selfPid s.backgroundOnly stream).1 with
  | ParseResult.nothing =>
    some ((reapPassState oracle s).1,
      (getInput selfPid s.backgroundOnly stream).2,
      (reapPassState oracle s).2 ++ [Event.readInput])
  | ParseResult.crash => none
  | ParseResult.cmd d =>
    match builtIn d (reapPassState oracle s).1.children
        (reapPassState oracle s).1.status with
    | Dispatch.exited tr _ =>
      some ((reapPassState oracle s).1,
        (getInput selfPid s.backgroundOnly stream).2,
        ((reapPassState oracle s).2 ++ [Event.readInput]) ++ tr)
    | Dispatch.handled tr =>
      some ((reapPassState oracle s).1,
        (getInput selfPid s.backgroundOnly stream).2,
        ((reapPassState oracle s).2 ++ [Event.readInput]) ++ tr)
    | Dispatch.external =>
      match otherProcess d (reapPassState oracle s).1.children
          (reapPassState oracle s).1.status forkPid w with
      | none => none
      | some (c2, st2, tr) =>
        some ({ (reapPassState oracle s).1 with
          children := c2
          status := st2 },
          (getInput selfPid s.backgroundOnly stream).2,
          ((reapPassState oracle s).2 ++ [Event.readInput]) ++ tr)

/-- Number of `print` events in a trace. -/
def countPrints : List Event → Nat
  | [] => 0
  | Event.print _ :: r => countPrints r + 1
  | _ :: r => countPrints r

/-! ### Helper lemmas -/

theorem removeChildProc_append_self (l : List Nat) (p : Nat) (hp : p ∉ l) :
    removeChildProc (l ++ [p]) p = l := by
  induction l with
  | nil => simp [removeChildProc]
  | cons a t ih =>
    have ha : a ≠ p := by
      intro h
      exact hp (h ▸ List.mem_cons_self a t)
    have ht : p ∉ t := fun h => hp (List.mem_cons_of_mem a h)
    simp [removeChildProc, ha, ih ht]

theorem removeChildProc_eq_filter (l : List Nat) (p : Nat) (hnd : l.Nodup) :
    removeChildProc l p = l.filter (fun x => decide (x ≠ p)) := by
  induction l with
  | nil => rfl
  | cons a t ih =>
    rw [List.nodup_cons] at hnd
    by_cases hap : a = p
    · subst hap
      have h1 : removeChildProc (a :: t) a = t := by
        simp [removeChildProc]
      have h2 : (decide (a ≠ a)) = false := by simp
      rw [h1, List.filter_cons, h2]
      simp only [Bool.false_eq_true, if_false]
      rw [eq_comm, List.filter_eq_self]
      intro x hx
      simp only [decide_eq_true_eq]
      exact fun hxa => hnd.1 (hxa ▸ hx)
    · have h2 : (decide (a ≠ p)) = true := by simp [hap]
      rw [removeChildProc, if_neg hap, List.filter_cons, h2, if_pos rfl,
        ih hnd.2]

theorem removeChildProc_nodup (l : List Nat) (p : Nat) (hnd : l.Nodup) :
    (removeChildProc l p).Nodup := by
  rw [removeChildProc_eq_filter l p hnd]
  exact hnd.filter _

theorem checkTCLoop_cons_none (oracle : Nat → Option WaitResult) (sg : Bool)
    (q : Nat) (rest h : List Nat) (hq : oracle q = none) :
    checkTCLoop oracle sg (q :: rest) h =
      ((checkTCLoop oracle sg rest h).1,
        Event.waitNoHang q :: (checkTCLoop oracle sg rest h).2) := by
  simp [checkTCLoop, hq]

theorem checkTCLoop_cons_some (oracle : Nat → Option WaitResult) (sg : Bool)
    (q : Nat) (rest h : List Nat) (w : WaitResult) (hq : oracle q = some w) :
    checkTCLoop oracle sg (q :: rest) h =
      ((checkTCLoop oracle sg rest (removeChildProc h q)).1,
        Event.waitNoHang q :: Event.print (bgAnnounce sg q w) ::
          (checkTCLoop oracle sg rest (removeChildProc h q)).2) := by
  simp [checkTCLoop, hq]

/-- Characterization of the child list resulting from the reap loop: with
distinct pids, exactly the records whose pid both occurs in the
iteration list and has terminated are removed. -/
theorem checkTCLoop_fst (oracle : Nat → Option WaitResult) (sg : Bool) :
    ∀ (l h : List Nat), h.Nodup →
      (checkTCLoop oracle sg l h).1 =
        h.filter (fun x => !(decide (x ∈ l) && (oracle x).isSome)) := by
  intro l
  induction l with
  | nil =>
    intro h _
    simp [checkTCLoop]
  | cons q rest ih =>
    intro h hnd
    cases hq : oracle q with
    | none =>
      rw [checkTCLoop_cons_none oracle sg q rest h hq]
      rw [show (((checkTCLoop oracle sg rest h).1,
          Event.waitNoHang q :: (checkTCLoop oracle sg rest h).2)).1 =
          (checkTCLoop oracle sg rest h).1 from rfl]
      rw [ih h hnd]
      apply List.filter_congr
      intro x _
      by_cases hxq : x = q
      · subst hxq
        simp [hq]
      · simp [List.mem_cons, hxq]
    | some w =>
      rw [checkTCLoop_cons_some oracle sg q rest h w hq]
      rw [show (((checkTCLoop oracle sg rest (removeChildProc h q)).1,
          Event.waitNoHang q :: Event.print (bgAnnounce sg q w) ::
            (checkTCLoop oracle sg rest (removeChildProc h q)).2)).1 =
          (checkTCLoop oracle sg rest (removeChildProc h q)).1 from rfl]
      rw [ih _ (removeChildProc_nodup h q hnd),
        removeChildProc_eq_filter h q hnd, List.filter_filter]
      apply List.filter_congr
      intro x _
      by_cases hxq : x = q
      · subst hxq
        simp [hq]
      · simp [List.mem_cons, hxq]

theorem checkTerminatedChildren_fst (oracle : Nat → Option WaitResult)
    (h : List Nat) (sg : Bool) (hnd : h.Nodup) :
    (checkTerminatedChildren oracle h sg).1 =
      h.filter (fun x => (oracle x).isNone) := by
  cases h with
  | nil => simp [checkTerminatedChildren]
  | cons a t =>
    rw [show checkTerminatedChildren oracle (a :: t) sg =
        checkTCLoop oracle sg (a :: t) (a :: t) from rfl,
      checkTCLoop_fst oracle sg (a :: t) (a :: t) hnd]
    apply List.filter_congr
    intro x hx
    rw [decide_eq_true hx, Bool.true_and]
    cases oracle x <;> simp

theorem length_filter_isNone_add (oracle : Nat → Option WaitResult)
    (h : List Nat) :
    (h.filter (fun x => (oracle x).isNone)).length +
      (h.filter (fun x => (oracle x).isSome)).length = h.length := by
  induction h with
  | nil => rfl
  | cons a t ih =>
    cases ha : oracle a <;> simp [List.filter_cons, ha] <;> omega

theorem checkTCLoop_countPrints (oracle : Nat → Option WaitResult) (sg : Bool) :
    ∀ (l h : List Nat),
      countPrints (checkTCLoop oracle sg l h).2 =
        (l.filter (fun p => (oracle p).isSome)).length := by
  intro l
  induction l with
  | nil =>
    intro h
    rfl
  | cons q rest ih =>
    intro h
    cases hq : oracle q with
    | none =>
      rw [checkTCLoop_cons_none oracle sg q rest h hq]
      simp [countPrints, List.filter_cons, hq, ih]
    | some w =>
      rw [checkTCLoop_cons_some oracle sg q rest h w hq]
      simp [countPrints, List.filter_cons, hq, ih]

theorem checkTCLoop_announce (oracle : Nat → Option WaitResult) (sg : Bool) :
    ∀ (l h : List Nat) (p : Nat) (w : WaitResult), p ∈ l → oracle p = some w →
      Event.print (bgAnnounce sg p w) ∈ (checkTCLoop oracle sg l h).2 := by
  intro l
  induction l with
  | nil =>
    intro h p w hp _
    exact absurd hp (List.not_mem_nil p)
  | cons q rest ih =>
    intro h p w hp hw
    rcases List.mem_cons.mp hp with hpq | hpr
    · subst hpq
      rw [checkTCLoop_cons_some oracle sg p rest h w hw]
      exact List.mem_cons_of_mem _ (List.mem_cons_self _ _)
    · cases hq : oracle q with
      | none =>
        rw [checkTCLoop_cons_none oracle sg q rest h hq]
        exact List.mem_cons_of_mem _ (ih h p w hpr hw)
      | some wq =>
        rw [checkTCLoop_cons_some oracle sg q rest h wq hq]
        exact List.mem_cons_of_mem _
          (List.mem_cons_of_mem _ (ih _ p w hpr hw))

theorem checkTCLoop_no_marker (oracle : Nat → Option WaitResult) (sg : Bool) :
    ∀ (l h : List Nat),
      Event.reapPass ∉ (checkTCLoop oracle sg l h).2 ∧
      Event.readInput ∉ (checkTCLoop oracle sg l h).2 := by
  intro l
  induction l with
  | nil =>
    intro h
    simp [checkTCLoop]
  | cons q rest ih =>
    intro h
    cases hq : oracle q with
    | none =>
      rw [checkTCLoop_cons_none oracle sg q rest h hq]
      constructor
      · intro hmem
        rcases List.mem_cons.mp hmem with hc | hc
        · exact Event.noConfusion hc
        · exact (ih h).1 hc
      · intro hmem
        rcases List.mem_cons.mp hmem with hc | hc
        · exact Event.noConfusion hc
        · exact (ih h).2 hc
    | some w =>
      rw [checkTCLoop_cons_some oracle sg q rest h w hq]
      constructor
      · intro hmem
        rcases List.mem_cons.mp hmem with hc | hc
        · exact Event.noConfusion hc
        · rcases List.mem_cons.mp hc with hc2 | hc2
          · exact Event.noConfusion hc2
          · exact (ih _).1 hc2
      · intro hmem
        rcases List.mem_cons.mp hmem with hc | hc
        · exact Event.noConfusion hc
        · rcases List.mem_cons.mp hc with hc2 | hc2
          · exact Event.noConfusion hc2
          · exact (ih _).2 hc2

theorem checkTerminatedChildren_countPrints (oracle : Nat → Option WaitResult)
    (h : List Nat) (sg : Bool) :
    countPrints (checkTerminatedChildren oracle h sg).2 =
      (h.filter (fun p => (oracle p).isSome)).length := by
  cases h with
  | nil => rfl
  | cons a t => exact checkTCLoop_countPrints oracle sg (a :: t) (a :: t)

theorem checkTerminatedChildren_announce (oracle : Nat → Option WaitResult)
    (h : List Nat) (sg : Bool) (p : Nat) (w : WaitResult)
    (hp : p ∈ h) (hw : oracle p = some w) :
    Event.print (bgAnnounce sg p w) ∈ (checkTerminatedChildren oracle h sg).2 := by
  cases h with
  | nil => exact absurd hp (List.not_mem_nil p)
  | cons a t => exact checkTCLoop_announce oracle sg (a :: t) (a :: t) p w hp hw

theorem checkTerminatedChildren_no_marker (oracle : Nat → Option WaitResult)
    (h : List Nat) (sg : Bool) :
    Event.reapPass ∉ (checkTerminatedChildren oracle h sg).2 ∧
    Event.readInput ∉ (checkTerminatedChildren oracle h sg).2 := by
  cases h with
  | nil => simp [checkTerminatedChildren]
  | cons a t => exact checkTCLoop_no_marker oracle sg (a :: t) (a :: t)

theorem redirectIO_background (d : CmdDesc) (b : Bool) (d1 : CmdDesc)
    (h : redirectIO d = some (b, d1)) : d1.background = d.background := by
  unfold redirectIO at h
  split at h
  · simp only [Option.some.injEq, Prod.mk.injEq] at h
    rw [← h.2]
  · simp only [Option.some.injEq, Prod.mk.injEq] at h
    rw [← h.2]
  · split_ifs at h <;>
      first
        | exact Option.noConfusion h
        | (simp only [Option.some.injEq, Prod.mk.injEq] at h
           rw [← h.2])

theorem redirectTwice_background (d d2 : CmdDesc)
    (h : redirectTwice d = some d2) : d2.background = d.background := by
  unfold redirectTwice at h
  split at h
  · exact Option.noConfusion h
  · rename_i d1 heq
    have h1 := redirectIO_background d false d1 heq
    simp only [Option.some.injEq] at h
    rw [← h, h1]
  · rename_i d1 heq
    have h1 := redirectIO_background d true d1 heq
    split at h
    · exact Option.noConfusion h
    · rename_i r heq2
      have h2 := redirectIO_background d1 r.1 r.2 heq2
      simp only [Option.some.injEq] at h
      rw [← h, h2, h1]

theorem killChildren_no_marker : ∀ l : List Nat,
    Event.reapPass ∉ killChildren l ∧ Event.readInput ∉ killChildren l := by
  intro l
  induction l with
  | nil => simp [killChildren]
  | cons p rest ih =>
    rw [killChildren]
    constructor
    · intro hm
      rcases List.mem_cons.mp hm with hc | hc
      · exact Event.noConfusion hc
      · rcases List.mem_cons.mp hc with hc2 | hc2
        · exact Event.noConfusion hc2
        · exact ih.1 hc2
    · intro hm
      rcases List.mem_cons.mp hm with hc | hc
      · exact Event.noConfusion hc
      · rcases List.mem_cons.mp hc with hc2 | hc2
        · exact Event.noConfusion hc2
        · exact ih.2 hc2

theorem killChildren_mem (l : List Nat) (p : Nat) (hp : p ∈ l) :
    Event.killSig p 15 ∈ killChildren l ∧
    Event.waitBlocking p ∈ killChildren l := by
  induction l with
  | nil => exact absurd hp (List.not_mem_nil p)
  | cons a rest ih =>
    rw [killChildren]
    rcases List.mem_cons.mp hp with h | h
    · subst h
      exact ⟨List.mem_cons_self _ _,
        List.mem_cons_of_mem _ (List.mem_cons_self _ _)⟩
    · exact ⟨List.mem_cons_of_mem _ (List.mem_cons_of_mem _ ((ih h).1)),
        List.mem_cons_of_mem _ (List.mem_cons_of_mem _ ((ih h).2))⟩

theorem otherProcess_no_marker (d : CmdDesc) (children : List Nat)
    (st : EndStatus) (newPid : Nat) (w : WaitResult)
    (c2 : List Nat) (st2 : EndStatus) (tr : List Event)
    (h : otherProcess d children st newPid w = some (c2, st2, tr)) :
    Event.reapPass ∉ tr ∧ Event.readInput ∉ tr := by
  unfold otherProcess at h
  split at h
  · exact Option.noConfusion h
  · rename_i d2 heq
    by_cases hbg : d2.background = false
    · rw [if_pos hbg] at h
      cases w with
      | exited code =>
        simp only [Option.some.injEq, Prod.mk.injEq] at h
        rw [← h.2.2]
        constructor <;> intro hm <;> simp [List.mem_cons] at hm
      | signaled sg =>
        simp only [Option.some.injEq, Prod.mk.injEq] at h
        rw [← h.2.2]
        by_cases hs : sg = 2 <;>
          simp [hs, List.mem_cons, List.mem_append]
    · rw [if_neg hbg] at h
      simp only [Option.some.injEq, Prod.mk.injEq] at h
      rw [← h.2.2]
      constructor <;> intro hm <;> simp [List.mem_cons] at hm

theorem builtIn_trace_no_marker (d : CmdDesc) (children : List Nat)
    (st : EndStatus) (tr : List Event) (code : Nat)
    (h : builtIn d children st = Dispatch.exited tr code ∨
         builtIn d children st = Dispatch.handled tr) :
    Event.reapPass ∉ tr ∧ Event.readInput ∉ tr := by
  unfold builtIn at h
  rcases h with h | h <;> split at h <;>
    first
      | exact Dispatch.noConfusion h
      | split_ifs at h <;>
          first
            | exact Dispatch.noConfusion h
            | (injection h with h1 h2
               rw [← h1]
               constructor
               · intro hm
                 rcases List.mem_append.mp hm with hc | hc
                 · exact (killChildren_no_marker children).1 hc
                 · rcases List.mem_cons.mp hc with hc2 | hc2
                   · exact Event.noConfusion hc2
                   · exact absurd hc2 (List.not_mem_nil _)
               · intro hm
                 rcases List.mem_append.mp hm with hc | hc
                 · exact (killChildren_no_marker children).2 hc
                 · rcases List.mem_cons.mp hc with hc2 | hc2
                   · exact Event.noConfusion hc2
                   · exact absurd hc2 (List.not_mem_nil _))
            | (injection h with h1
               rw [← h1]
               constructor <;> intro hm <;> simp [List.mem_cons] at hm)

theorem otherProcess_eq_bg (d d2 : CmdDesc) (children : List Nat)
    (st : EndStatus) (newPid : Nat) (w : WaitResult)
    (hrt : redirectTwice d = some d2) (hb2 : d2.background = true) :
    otherProcess d children st newPid w =
      some (createChildProc children newPid, st,
        [Event.forkChild newPid,
         Event.print ("background pid is " ++ toString newPid)]) := by
  simp [otherProcess, hrt, hb2]

theorem otherProcess_eq_fg_exited (d d2 : CmdDesc) (children : List Nat)
    (st : EndStatus) (newPid : Nat) (code : Nat)
    (hrt : redirectTwice d = some d2) (hb2 : d2.background = false) :
    otherProcess d children st newPid (WaitResult.exited code) =
      some (removeChildProc (createChildProc children newPid) newPid,
        ⟨true, code⟩,
        [Event.forkChild newPid, Event.waitBlocking newPid]) := by
  simp [otherProcess, hrt, hb2]

theorem otherProcess_eq_fg_signaled (d d2 : CmdDesc) (children : List Nat)
    (st : EndStatus) (newPid : Nat) (sg : Nat)
    (hrt : redirectTwice d = some d2) (hb2 : d2.background = false) :
    otherProcess d children st newPid (WaitResult.signaled sg) =
      some (removeChildProc (createChildProc children newPid) newPid,
        ⟨false, sg⟩,
        [Event.forkChild newPid, Event.waitBlocking newPid] ++
          (if sg = 2 then
            [Event.print ("terminated by signal " ++ toString sg)]
          else [])) := by
  simp [otherProcess, hrt, hb2]

/-! ### Claim theorems -/

/-- C1: for every foreground dispatch (`background = false`) of a
non-built-in command, the supervisor blocks until that specific child
terminates, then sets the Last Status Record to Exited with the exit
code on a normal exit, or to Signaled with the terminating signal
number otherwise; exactly when the terminating signal is 2 it prints
the one-line notice immediately, and a subsequent `status` built-in
prints `terminated by signal 2`. -/
theorem C1_foreground_wait_and_status (d d2 : CmdDesc) (children : List Nat)
    (st : EndStatus) (newPid : Nat) (w : WaitResult)
    (hrt : redirectTwice d = some d2) (hbg : d.background = false) :
    ∃ children2 st2 tr,
      otherProcess d children st newPid w = some (children2, st2, tr) ∧
      Event.waitBlocking newPid ∈ tr ∧
      (∀ c, w = WaitResult.exited c →
        st2 = ⟨true, c⟩ ∧ ∀ ln, Event.print ln ∉ tr) ∧
      (∀ sg, w = WaitResult.signaled sg →
        st2 = ⟨false, sg⟩ ∧
        (sg = 2 → Event.print "terminated by signal 2" ∈ tr ∧
          printStatus st2 = "terminated by signal 2") ∧
        (sg ≠ 2 → ∀ ln, Event.print ln ∉ tr)) := by
  have hb2 : d2.background = false := by
    rw [redirectTwice_background d d2 hrt, hbg]
  cases w with
  | exited c =>
    refine ⟨_, _, _,
      otherProcess_eq_fg_exited d d2 children st newPid c hrt hb2,
      ?_, ?_, ?_⟩
    · exact List.mem_cons_of_mem _ (List.mem_cons_self _ _)
    · intro c2 hc
      injection hc with hc2
      subst hc2
      refine ⟨rfl, ?_⟩
      intro ln hm
      rcases List.mem_cons.mp hm with hc | hc
      · exact Event.noConfusion hc
      · rcases List.mem_cons.mp hc with hc2 | hc2
        · exact Event.noConfusion hc2
        · exact absurd hc2 (List.not_mem_nil _)
    · intro sg hc
      exact WaitResult.noConfusion hc
  | signaled sg =>
    refine ⟨_, _, _,
      otherProcess_eq_fg_signaled d d2 children st newPid sg hrt hb2,
      ?_, ?_, ?_⟩
    · exact List.mem_append_left _
        (List.mem_cons_of_mem _ (List.mem_cons_self _ _))
    · intro c hc
      exact WaitResult.noConfusion hc
    · intro sg2 hc
      injection hc with hc2
      subst hc2
      refine ⟨rfl, ?_, ?_⟩
      · intro hs2
        subst hs2
        constructor
        · apply List.mem_append_right
          rw [if_pos rfl]
          exact List.mem_cons_self _ _
        · decide
      · intro hs2
        intro ln hm
        rcases List.mem_append.mp hm with hc | hc
        · rcases List.mem_cons.mp hc with hc2 | hc2
          · exact Event.noConfusion hc2
          · rcases List.mem_cons.mp hc2 with hc3 | hc3
            · exact Event.noConfusion hc3
            · exact absurd hc3 (List.not_mem_nil _)
        · rw [if_neg hs2] at hc
          exact absurd hc (List.not_mem_nil _)

/-- C1 witness: a concrete foreground dispatch killed by signal 2. -/
theorem C1_witness :
    ∃ children2 st2 tr,
      otherProcess ⟨["ls"], none, none, false⟩ [] ⟨true, 0⟩ 7
          (WaitResult.signaled 2) = some (children2, st2, tr) ∧
      Event.waitBlocking 7 ∈ tr ∧
      (∀ c, WaitResult.signaled 2 = WaitResult.exited c →
        st2 = ⟨true, c⟩ ∧ ∀ ln, Event.print ln ∉ tr) ∧
      (∀ sg, WaitResult.signaled 2 = WaitResult.signaled sg →
        st2 = ⟨false, sg⟩ ∧
        (sg = 2 → Event.print "terminated by signal 2" ∈ tr ∧
          printStatus st2 = "terminated by signal 2") ∧
        (sg ≠ 2 → ∀ ln, Event.print ln ∉ tr)) :=
  C1_foreground_wait_and_status ⟨["ls"], none, none, false⟩
    ⟨["ls"], none, none, false⟩ [] ⟨true, 0⟩ 7 (WaitResult.signaled 2)
    (by decide) rfl

/-- C2: the Last Status Record is modified only by completion of a
foreground dispatch: a reap pass leaves it unchanged, and a background
dispatch returns it unchanged (background completions only produce an
announcement). -/
theorem C2_status_only_foreground (oracle : Nat → Option WaitResult)
    (s : ShellState) (d : CmdDesc) (children : List Nat) (st : EndStatus)
    (newPid : Nat) (w : WaitResult) (r : List Nat × EndStatus × List Event)
    (hbg : d.background = true)
    (hr : otherProcess d children st newPid w = some r) :
    (reapPassState oracle s).1.status = s.status ∧ r.2.1 = st := by
  constructor
  · rfl
  · unfold otherProcess at hr
    split at hr
    · exact Option.noConfusion hr
    · rename_i d2 heq
      have hb2 : d2.background = true := by
        rw [redirectTwice_background d d2 heq, hbg]
      rw [hb2] at hr
      simp only [Bool.true_eq_false, if_false, Option.some.injEq] at hr
      rw [← hr]

/-- C2 witness: a concrete reap pass and a concrete background dispatch. -/
theorem C2_witness :
    (reapPassState (fun _ => none) ⟨[4], ⟨false, 9⟩, false⟩).1.status =
      (⟨[4], ⟨false, 9⟩, false⟩ : ShellState).status ∧
    (([8], ⟨true, 0⟩, [Event.forkChild 8, Event.print "background pid is 8"]) :
      List Nat × EndStatus × List Event).2.1 = (⟨true, 0⟩ : EndStatus) :=
  C2_status_only_foreground (fun _ => none) ⟨[4], ⟨false, 9⟩, false⟩
    ⟨["sleep"], none, none, true⟩ [] ⟨true, 0⟩ 8 (WaitResult.exited 0)
    ([8], ⟨true, 0⟩, [Event.forkChild 8, Event.print "background pid is 8"])
    rfl (by decide)

/-- C3: a background dispatch does not block: the child pid is appended
to the Job Table and printed, with no blocking wait; a reap pass keeps
exactly the unterminated records (for distinct pids), its length drops
by one per completed record, and one announcement is printed per
completed record. -/
theorem C3_background_dispatch_and_reap
    (d d2 : CmdDesc) (children : List Nat) (st : EndStatus) (newPid : Nat)
    (w : WaitResult) (oracle : Nat → Option WaitResult) (table : List Nat)
    (hrt : redirectTwice d = some d2) (hbg : d.background = true)
    (hnd : table.Nodup) :
    (∃ tr, otherProcess d children st newPid w =
        some (createChildProc children newPid, st, tr) ∧
      Event.print ("background pid is " ++ toString newPid) ∈ tr ∧
      ∀ p, Event.waitBlocking p ∉ tr) ∧
    (checkTerminatedChildren oracle table false).1 =
      table.filter (fun p => (oracle p).isNone) ∧
    (checkTerminatedChildren oracle table false).1.length +
      (table.filter (fun p => (oracle p).isSome)).length = table.length ∧
    (∀ p ∈ table, ∀ wr, oracle p = some wr →
      Event.print (bgAnnounce false p wr) ∈
        (checkTerminatedChildren oracle table false).2) ∧
    countPrints (checkTerminatedChildren oracle table false).2 =
      (table.filter (fun p => (oracle p).isSome)).length := by
  have hb2 : d2.background = true := by
    rw [redirectTwice_background d d2 hrt, hbg]
  refine ⟨?_, ?_, ?_, ?_, ?_⟩
  · refine ⟨_, otherProcess_eq_bg d d2 children st newPid w hrt hb2, ?_, ?_⟩
    · exact List.mem_cons_of_mem _ (List.mem_cons_self _ _)
    · intro p hm
      rcases List.mem_cons.mp hm with hc | hc
      · exact Event.noConfusion hc
      · rcases List.mem_cons.mp hc with hc2 | hc2
        · exact Event.noConfusion hc2
        · exact absurd hc2 (List.not_mem_nil _)
  · exact checkTerminatedChildren_fst oracle table false hnd
  · rw [checkTerminatedChildren_fst oracle table false hnd]
    exact length_filter_isNone_add oracle table
  · intro p hp wr hw
    exact checkTerminatedChildren_announce oracle table false p wr hp hw
  · exact checkTerminatedChildren_countPrints oracle table false

/-- C3 witness: concrete background dispatch and a reap pass over the
table [5, 6] in which pid 5 has exited. -/
theorem C3_witness :
    (∃ tr, otherProcess ⟨["sleep", "30"], none, none, true⟩ [3] ⟨true, 0⟩ 9
        (WaitResult.exited 0) =
        some (createChildProc [3] 9, ⟨true, 0⟩, tr) ∧
      Event.print ("background pid is " ++ toString 9) ∈ tr ∧
      ∀ p, Event.waitBlocking p ∉ tr) ∧
    (checkTerminatedChildren
        (fun p => if p = 5 then some (WaitResult.exited 0) else none)
        [5, 6] false).1 =
      ([5, 6].filter (fun p =>
        ((fun q => if q = 5 then some (WaitResult.exited 0) else none)
          p).isNone)) ∧
    (checkTerminatedChildren
        (fun p => if p = 5 then some (WaitResult.exited 0) else none)
        [5, 6] false).1.length +
      ([5, 6].filter (fun p =>
        ((fun q => if q = 5 then some (WaitResult.exited 0) else none)
          p).isSome)).length = ([5, 6] : List Nat).length ∧
    (∀ p ∈ ([5, 6] : List Nat), ∀ wr,
      (fun q => if q = 5 then some (WaitResult.exited 0) else none) p =
        some wr →
      Event.print (bgAnnounce false p wr) ∈
        (checkTerminatedChildren
          (fun p => if p = 5 then some (WaitResult.exited 0) else none)
          [5, 6] false).2) ∧
    countPrints (checkTerminatedChildren
        (fun p => if p = 5 then some (WaitResult.exited 0) else none)
        [5, 6] false).2 =
      ([5, 6].filter (fun p =>
        ((fun q => if q = 5 then some (WaitResult.exited 0) else none)
          p).isSome)).length :=
  C3_background_dispatch_and_reap ⟨["sleep", "30"], none, none, true⟩
    ⟨["sleep", "30"], none, none, true⟩ [3] ⟨true, 0⟩ 9
    (WaitResult.exited 0)
    (fun p => if p = 5 then some (WaitResult.exited 0) else none) [5, 6]
    (by decide) rfl (by decide)

/-- C10: a foreground dispatch leaves the Job Table exactly as it was:
the freshly forked pid is appended before the blocking wait and removed
right after it. -/
theorem C10_foreground_table_framed (d d2 : CmdDesc) (children : List Nat)
    (st : EndStatus) (newPid : Nat) (w : WaitResult)
    (hrt : redirectTwice d = some d2) (hbg : d.background = false)
    (hfresh : newPid ∉ children) :
    removeChildProc (createChildProc children newPid) newPid = children ∧
    ∃ st2 tr, otherProcess d children st newPid w =
      some (children, st2, tr) := by
  have hkey : removeChildProc (createChildProc children newPid) newPid =
      children := removeChildProc_append_self children newPid hfresh
  have hb2 : d2.background = false := by
    rw [redirectTwice_background d d2 hrt, hbg]
  refine ⟨hkey, ?_⟩
  cases w with
  | exited code =>
    exact ⟨_, _, by
      rw [otherProcess_eq_fg_exited d d2 children st newPid code hrt hb2,
        hkey]⟩
  | signaled sg =>
    exact ⟨_, _, by
      rw [otherProcess_eq_fg_signaled d d2 children st newPid sg hrt hb2,
        hkey]⟩

/-- C10 witness: a concrete foreground dispatch with a fresh pid. -/
theorem C10_witness :
    removeChildProc (createChildProc [3, 4] 9) 9 = [3, 4] ∧
    ∃ st2 tr, otherProcess ⟨["ls"], none, none, false⟩ [3, 4] ⟨true, 0⟩ 9
      (WaitResult.exited 1) = some ([3, 4], st2, tr) :=
  C10_foreground_table_framed ⟨["ls"], none, none, false⟩
    ⟨["ls"], none, none, false⟩ [3, 4] ⟨true, 0⟩ 9 (WaitResult.exited 1)
    (by decide) rfl (by decide)

/-- C4: the `exit` built-in sends every tracked pid a termination signal
(SIGTERM, 15) and blockingly waits on it before the shell terminates,
and the shell exits with code 0. -/
theorem C4_exit_drains_then_exits (d : CmdDesc) (children : List Nat)
    (st : EndStatus) (hw : d.words.head? = some "exit") :
    builtIn d children st =
      Dispatch.exited (killChildren children ++ [Event.exitShell 0]) 0 ∧
    ∀ p ∈ children,
      Event.killSig p 15 ∈ killChildren children ∧
      Event.waitBlocking p ∈ killChildren children := by
  constructor
  · unfold builtIn
    rw [hw]
    rfl
  · intro p hp
    exact killChildren_mem children p hp

/-- C4 witness: `exit` with two outstanding background pids. -/
theorem C4_witness :
    builtIn ⟨["exit"], none, none, false⟩ [3, 4] ⟨true, 0⟩ =
      Dispatch.exited (killChildren [3, 4] ++ [Event.exitShell 0]) 0 ∧
    ∀ p ∈ ([3, 4] : List Nat),
      Event.killSig p 15 ∈ killChildren [3, 4] ∧
      Event.waitBlocking p ∈ killChildren [3, 4] :=
  C4_exit_drains_then_exits ⟨["exit"], none, none, false⟩ [3, 4] ⟨true, 0⟩
    rfl

/-- C5 counterexample: on the line consisting of the single word `&`,
the `&` token is NOT removed from the word sequence (the code only
unlinks the tail when a second node exists), refuting the claim that
the token is removed in all cases. -/
theorem C5_counterexample :
    separateInput false ("&".data) =
      ParseResult.cmd ⟨["&"], none, none, true⟩ ∧
    "&" ∈ (⟨["&"], none, none, true⟩ : CmdDesc).words := by
  decide

/-- C5 amended: for every input line that tokenizes to at least two
words with the last word exactly `&`, the trailing `&` is removed and
the descriptor has `background = true` exactly when Foreground-Only
Mode is false (a line whose only word is `&` instead keeps the token). -/
theorem buildDesc_last_amp (backgroundOnly : Bool) (toks : List String)
    (h : toks.getLast? = some "&") :
    buildDesc backgroundOnly toks =
      ParseResult.cmd
        (setBackground backgroundOnly ⟨toks, none, none, false⟩) := by
  unfold buildDesc
  rw [h]
  rfl

theorem setBackground_eq (backgroundOnly : Bool) (ws : List String)
    (hlen : ws.length ≥ 2) :
    setBackground backgroundOnly ⟨ws, none, none, false⟩ =
      ⟨ws.dropLast, none, none, !backgroundOnly⟩ := by
  cases backgroundOnly <;> simp [setBackground, hlen]

theorem C5_amended_trailing_amp (backgroundOnly : Bool) (input : List Char)
    (ts : List String) (htok : tokenize input = ts ++ ["&"])
    (hne : ts ≠ []) :
    separateInput backgroundOnly input =
      ParseResult.cmd ⟨ts, none, none, !backgroundOnly⟩ := by
  have hlast : (ts ++ ["&"]).getLast? = some "&" := List.getLast?_concat ts
  have hlen : (ts ++ ["&"]).length ≥ 2 := by
    rw [List.length_append]
    have := List.length_pos.mpr hne
    simp only [List.length_singleton]
    omega
  have hdrop : (ts ++ ["&"]).dropLast = ts := List.dropLast_concat
  unfold separateInput
  rw [htok, buildDesc_last_amp backgroundOnly (ts ++ ["&"]) hlast,
    setBackground_eq backgroundOnly (ts ++ ["&"]) hlen, hdrop]

/-- C5 witness: the line `ls &` with Foreground-Only Mode off. -/
theorem C5_amended_witness :
    separateInput false ("ls &".data) =
      ParseResult.cmd ⟨["ls"], none, none, !false⟩ :=
  C5_amended_trailing_amp false ("ls &".data) ["ls"] (by decide) (by decide)

/-- C6: the code replaces the FIRST `$$` and then stops reading the
line: the terminator `sprintf` writes after the pid digits makes the
end-of-buffer check in `getInput` break out of the read loop, so
`echo $$ end` with shell pid 4821 tokenizes to `["echo", "4821"]` and
leaves ` end\n` unread on stdin — against the claimed
`["echo", "4821", "end"]`.  A lone `$` not followed by `$` is indeed
preserved literally. -/
theorem C6_dollar_dollar_truncates :
    getInput 4821 false ("echo $$ end\n".data) =
      (ParseResult.cmd ⟨["echo", "4821"], none, none, false⟩,
        " end\n".data) ∧
    getInput 4821 false ("echo a$b\n".data) =
      (ParseResult.cmd ⟨["echo", "a$b"], none, none, false⟩, []) := by
  decide

/-- C7: redirection extraction inspects the last two remaining words,
runs at most twice, and recognizes both redirections regardless of
order: `ls -l > out.txt` keeps words `["ls", "-l"]` with output
redirect `out.txt`; `wc < in.txt > out.txt` and `wc > out.txt < in.txt`
both yield words `["wc"]` with both redirects set. -/
theorem C7_redirection_extraction :
    redirectTwice ⟨["ls", "-l", ">", "out.txt"], none, none, false⟩ =
      some ⟨["ls", "-l"], none, some "out.txt", false⟩ ∧
    redirectTwice ⟨["wc", "<", "in.txt", ">", "out.txt"], none, none, false⟩ =
      some ⟨["wc"], some "in.txt", some "out.txt", false⟩ ∧
    redirectTwice ⟨["wc", ">", "out.txt", "<", "in.txt"], none, none, false⟩ =
      some ⟨["wc"], some "in.txt", some "out.txt", false⟩ := by
  decide

/-- C8 counterexample: a foreground dispatch terminated by the
interrupt signal (signal 2) produces no reap pass at all — the
signal-formatting variant of `checkTerminatedChildren` has no caller —
refuting the claim that the reap pass is additionally invoked from the
interrupt-signal foreground path. -/
theorem C8_counterexample :
    otherProcess ⟨["sleep", "30"], none, none, false⟩ [] ⟨true, 0⟩ 9
        (WaitResult.signaled 2) =
      some ([], ⟨false, 2⟩,
        [Event.forkChild 9, Event.waitBlocking 9,
         Event.print "terminated by signal 2"]) ∧
    Event.reapPass ∉
      ([Event.forkChild 9, Event.waitBlocking 9,
        Event.print "terminated by signal 2"] : List Event) := by
  decide

/-- C8 amended: the reap pass is invoked exactly once per Main Loop
iteration, before reading new input, and nowhere else in the
iteration (in particular not from the interrupt-signal foreground
path). -/
theorem C8_amended_reap_once_before_read (s : ShellState) (selfPid : Nat)
    (stream : List Char) (oracle : Nat → Option WaitResult) (forkPid : Nat)
    (w : WaitResult) (out : ShellState × List Char × List Event)
    (h : mainLoopIter s selfPid stream oracle forkPid w = some out) :
    ∃ l1 l2, out.2.2 = Event.reapPass :: (l1 ++ Event.readInput :: l2) ∧
      Event.reapPass ∉ l1 ∧ Event.reapPass ∉ l2 ∧
      Event.readInput ∉ l1 ∧ Event.readInput ∉ l2 := by
  have hreap := checkTerminatedChildren_no_marker oracle s.children false
  unfold mainLoopIter at h
  split at h
  · -- empty or comment line
    simp only [Option.some.injEq] at h
    subst h
    refine ⟨(checkTerminatedChildren oracle s.children false).2, [],
      ?_, hreap.1, List.not_mem_nil _, hreap.2, List.not_mem_nil _⟩
    rfl
  · exact Option.noConfusion h
  · -- a command descriptor was produced
    rename_i d hgd
    split at h
    · rename_i tr code heq
      simp only [Option.some.injEq] at h
      subst h
      have hbi := builtIn_trace_no_marker d
        (reapPassState oracle s).1.children (reapPassState oracle s).1.status
        tr code (Or.inl heq)
      refine ⟨(checkTerminatedChildren oracle s.children false).2, tr,
        ?_, hreap.1, hbi.1, hreap.2, hbi.2⟩
      show ((Event.reapPass ::
          (checkTerminatedChildren oracle s.children false).2) ++
          [Event.readInput]) ++ tr = _
      simp [List.append_assoc]
    · rename_i tr heq
      simp only [Option.some.injEq] at h
      subst h
      have hbi := builtIn_trace_no_marker d
        (reapPassState oracle s).1.children (reapPassState oracle s).1.status
        tr 0 (Or.inr heq)
      refine ⟨(checkTerminatedChildren oracle s.children false).2, tr,
        ?_, hreap.1, hbi.1, hreap.2, hbi.2⟩
      show ((Event.reapPass ::
          (checkTerminatedChildren oracle s.children false).2) ++
          [Event.readInput]) ++ tr = _
      simp [List.append_assoc]
    · split at h
      · exact Option.noConfusion h
      · rename_i c2 st2 tr heq
        simp only [Option.some.injEq] at h
        subst h
        have hop := otherProcess_no_marker d
          (reapPassState oracle s).1.children
          (reapPassState oracle s).1.status forkPid w c2 st2 tr heq
        refine ⟨(checkTerminatedChildren oracle s.children false).2, tr,
          ?_, hreap.1, hop.1, hreap.2, hop.2⟩
        show ((Event.reapPass ::
            (checkTerminatedChildren oracle s.children false).2) ++
            [Event.readInput]) ++ tr = _
        simp [List.append_assoc]

/-- C8 witness: a concrete loop iteration dispatching `ls` in the
foreground. -/
theorem C8_witness :
    ∃ l1 l2,
      (((⟨[], ⟨true, 0⟩, false⟩ : ShellState), ([] : List Char),
        [Event.reapPass, Event.readInput, Event.forkChild 5,
         Event.waitBlocking 5]) :
          ShellState × List Char × List Event).2.2 =
        Event.reapPass :: (l1 ++ Event.readInput :: l2) ∧
      Event.reapPass ∉ l1 ∧ Event.reapPass ∉ l2 ∧
      Event.readInput ∉ l1 ∧ Event.readInput ∉ l2 :=
  C8_amended_reap_once_before_read ⟨[], ⟨true, 0⟩, false⟩ 7 ("ls\n".data)
    (fun _ => none) 5 (WaitResult.exited 0)
    (⟨[], ⟨true, 0⟩, false⟩, [],
      [Event.reapPass, Event.readInput, Event.forkChild 5,
       Event.waitBlocking 5]) (by decide)

/-- C9: empty lines and comment lines produce no descriptor, but a line
consisting only of spaces defeats the emptiness guard (`i == 0` is
false, the first character is not `#`), reaches `separateInput` with no
tokens, and the `&` check dereferences the NULL tail — refuting the
claimed null-safety of that inspection. -/
theorem C9_spaces_line_crashes :
    getInput 77 false ("   \n".data) = (ParseResult.crash, []) ∧
    getInput 77 false ("\n".data) = (ParseResult.nothing, []) ∧
    getInput 77 false ("# note\n".data) = (ParseResult.nothing, []) := by
  decide

end Smallsh
